import Mathlib

/-!
Verification of the recommendation scoring engine of the social-network-neo4j
service (`app/services/recommendation_service.py`).

The three ranking operations — friend recommendations, job recommendations and
"people you may know" suggestions — are each implemented in the source as a
single Cypher query executed against a Neo4j property graph.  This file gives a
shallow embedding: the property graph is an explicit Lean value (user nodes,
company nodes, `KNOWS` / `HAS_SKILL` / `WORKS_AT` edge lists) and each query is
translated row-by-row into an executable Lean function.  Numeric scores are
modelled as exact rationals; Cypher's `ORDER BY` is modelled as a stable
insertion sort on the documented keys, with row order given by the enumeration
order of the graph's node lists.  `KNOWS` is matched undirectedly in every query, so a
`knows` edge is adjacency in either direction.  Skill nodes are identified by
their (unique) name, as the seeding scripts create them via `MERGE` on `name`.
-/

/-- User node, with the fields the recommendation queries read
(`user_id`, `name`, optional `title`). -/
structure User where
  user_id : String
  name : String
  title : Option String
deriving DecidableEq, Repr

/-- Company node (`name`, optional `location`). -/
structure Company where
  name : String
  location : Option String
deriving DecidableEq, Repr

/-- Property graph: node lists plus `KNOWS` (user–user, matched undirected),
`HAS_SKILL` (user → skill name) and `WORKS_AT` (user → company name) edges. -/
structure Graph where
  users : List User
  companies : List Company
  knows : List (String × String)
  hasSkill : List (String × String)
  worksAt : List (String × String)
deriving DecidableEq, Repr

namespace Graph

/-- Undirected `KNOWS` adjacency between two user ids:
`(a)-[:KNOWS]-(b)` holds if the edge list has the pair in either direction. -/
def knowsRel (g : Graph) (a b : String) : Bool :=
  g.knows.any (fun e => (e.1 == a && e.2 == b) || (e.1 == b && e.2 == a))

/-- Bindings of `MATCH (u:User {user_id: $user_id})`: every user node whose
`user_id` property equals the parameter. -/
def usersWith (g : Graph) (uid : String) : List User :=
  g.users.filter (fun u => u.user_id == uid)

/-- Rows of `MATCH (u)-[:HAS_SKILL]->(s:Skill)` for a fixed user, projected to
`s.name`: one entry per `HAS_SKILL` edge, in edge-list order. -/
def rawSkills (g : Graph) (uid : String) : List String :=
  (g.hasSkill.filter (fun e => e.1 == uid)).map Prod.snd

/-- Whether the user holds the named skill. -/
def hasSkillEdge (g : Graph) (uid s : String) : Bool :=
  g.hasSkill.any (fun e => e.1 == uid && e.2 == s)

/-- Whether the user works at the named company. -/
def worksAtEdge (g : Graph) (uid c : String) : Bool :=
  g.worksAt.any (fun e => e.1 == uid && e.2 == c)

/-- Bindings of `MATCH (u)-[:WORKS_AT]->(c:Company)` for a fixed user. -/
def companiesOf (g : Graph) (uid : String) : List Company :=
  g.companies.filter (fun c => g.worksAtEdge uid c.name)

end Graph

/-- Clamp used in the `RETURN` clauses:
`CASE WHEN score > 1.0 THEN 1.0 ELSE score END`. -/
def clamp1 (q : ℚ) : ℚ := if 1 < q then 1 else q

/-! ### Friend recommendations (`get_friend_recommendations`) -/

/-- Output row of the friend-recommendation query
(model `FriendRecommendation` in `app/models/recommendation.py`). -/
structure FriendRecommendation where
  user_id : String
  name : String
  title : Option String
  mutual_connections : ℕ
  common_skills : List String
  score : ℚ
  reason : String
deriving DecidableEq, Repr

/-- `COUNT(DISTINCT friend)` over rows of
`(u)-[:KNOWS]-(friend)-[:KNOWS]-(recommendation)` for a fixed candidate. -/
def mutualCount (g : Graph) (u r : User) : ℕ :=
  ((g.users.filter
    (fun f => g.knowsRel u.user_id f.user_id && g.knowsRel f.user_id r.user_id)).dedup).length

/-- Candidate set of the friend query: users reachable in two `KNOWS` hops,
with `WHERE u <> recommendation AND NOT (u)-[:KNOWS]-(recommendation)`;
grouping by the candidate makes the list duplicate-free. -/
def friendCands (g : Graph) (u : User) : List User :=
  (g.users.filter (fun r =>
    g.users.any (fun f => g.knowsRel u.user_id f.user_id && g.knowsRel f.user_id r.user_id) &&
    decide (r ≠ u) && !(g.knowsRel u.user_id r.user_id))).dedup

/-- `COLLECT(DISTINCT s.name)` over
`OPTIONAL MATCH (u:User {user_id: $user_id})-[:HAS_SKILL]->(s)<-[:HAS_SKILL]-(recommendation)`;
the query re-binds `u` by `user_id`, so the rows range over every node with
that id. -/
def commonSkills (g : Graph) (uid : String) (r : User) : List String :=
  ((g.usersWith uid).flatMap
    (fun u => (g.rawSkills u.user_id).filter (fun s => g.hasSkillEdge r.user_id s))).dedup

/-- Friend score: `(mutual_count * 0.6 + SIZE(common_skills) * 0.4) / 10.0`,
clamped by the `CASE` in the `RETURN` clause. -/
def friendScore (m k : ℕ) : ℚ :=
  clamp1 (((m : ℚ) * 0.6 + (k : ℚ) * 0.4) / 10)

/-- Reason string, `CASE` branches evaluated in source order. -/
def friendReason (m k : ℕ) : String :=
  if 5 < m then "Many mutual connections"
  else if 3 < k then "Similar skills"
  else "Mutual connections"

/-- One returned row of the friend query for candidate `r`. -/
def friendRow (g : Graph) (uid : String) (u r : User) : FriendRecommendation :=
  { user_id := r.user_id
    name := r.name
    title := r.title
    mutual_connections := mutualCount g u r
    common_skills := commonSkills g uid r
    score := friendScore (mutualCount g u r) (commonSkills g uid r).length
    reason := friendReason (mutualCount g u r) (commonSkills g uid r).length }

/-- Sort key of `ORDER BY score DESC, mutual_count DESC`: a total relation on
(score, mutual count) pairs, score descending then count descending. -/
def keyR (p q : ℚ × ℕ) : Prop :=
  q.1 < p.1 ∨ (p.1 = q.1 ∧ q.2 ≤ p.2)

instance : DecidableRel keyR :=
  fun _p _q => inferInstanceAs (Decidable (_ ∨ _))

/-- Transitivity of the two-key descending order. -/
theorem keyR_trans {p q r : ℚ × ℕ} (h1 : keyR p q) (h2 : keyR q r) : keyR p r := by
  rcases h1 with h1 | ⟨h1e, h1m⟩ <;> rcases h2 with h2 | ⟨h2e, h2m⟩
  · exact Or.inl (h2.trans h1)
  · exact Or.inl (h2e ▸ h1)
  · exact Or.inl (h1e ▸ h2)
  · exact Or.inr ⟨h1e.trans h2e, h2m.trans h1m⟩

/-- Totality of the two-key descending order. -/
theorem keyR_total (p q : ℚ × ℕ) : keyR p q ∨ keyR q p := by
  rcases lt_trichotomy p.1 q.1 with h | h | h
  · exact Or.inr (Or.inl h)
  · rcases le_total q.2 p.2 with hm | hm
    · exact Or.inl (Or.inr ⟨h, hm⟩)
    · exact Or.inr (Or.inr ⟨h.symm, hm⟩)
  · exact Or.inl (Or.inl h)

/-- Ordering of friend rows: score descending, then mutual count descending. -/
def friendR (a b : FriendRecommendation) : Prop :=
  keyR (a.score, a.mutual_connections) (b.score, b.mutual_connections)

instance : DecidableRel friendR :=
  fun _a _b => inferInstanceAs (Decidable (keyR _ _))

instance : IsTrans FriendRecommendation friendR := ⟨fun _ _ _ => keyR_trans⟩

instance : IsTotal FriendRecommendation friendR := ⟨fun _ _ => keyR_total _ _⟩

/-- The friend-recommendation operation: build all rows, sort by
`ORDER BY score DESC, mutual_count DESC`, then apply `LIMIT $limit`. -/
def get_friend_recommendations (g : Graph) (uid : String) (limit : ℕ) :
    List FriendRecommendation :=
  (List.insertionSort friendR
    ((g.usersWith uid).flatMap
      (fun u => (friendCands g u).map (friendRow g uid u)))).take limit

/-! ### Job recommendations (`get_job_recommendations`) -/

/-- Output row of the job-recommendation query. -/
structure JobRecommendation where
  job_id : String
  title : String
  company : String
  location : Option String
  required_skills : List String
  matching_skills : List String
  skill_match_rate : ℚ
  score : ℚ
deriving DecidableEq, Repr

/-- Rows of `MATCH (other:User)-[:HAS_SKILL]->(s:Skill)
WHERE other <> u AND s.name IN user_skills`, projected to `(other, s.name)`. -/
def jobPairs (g : Graph) (u : User) (user_skills : List String) :
    List (User × String) :=
  g.users.flatMap (fun other =>
    ((g.rawSkills other.user_id).filter
      (fun s => decide (other ≠ u) && decide (s ∈ user_skills))).map (fun s => (other, s)))

/-- Rows after the further `MATCH (other)-[:WORKS_AT]->(c:Company)
WHERE NOT (u)-[:WORKS_AT]->(c)`. -/
def jobTriples (g : Graph) (u : User) (user_skills : List String) :
    List (User × String × Company) :=
  (jobPairs g u user_skills).flatMap (fun p =>
    (g.companies.filter (fun c =>
      g.worksAtEdge p.1.user_id c.name && !(g.worksAtEdge u.user_id c.name))).map
      (fun c => (p.1, p.2, c)))

/-- `COLLECT(DISTINCT s.name)` for one company group of the job query. -/
def companySkills (ts : List (User × String × Company)) (c : Company) : List String :=
  ((ts.filter (fun t => decide (t.2.2 = c))).map (fun t => t.2.1)).dedup

/-- One returned row of the job query for company `c`: skill list, matched
sub-list, match rate (`0.0` guard for an empty group), synthesized id/title. -/
def jobRow (user_skills : List String) (ts : List (User × String × Company))
    (c : Company) : JobRecommendation :=
  let cs := companySkills ts c
  let ms := cs.filter (fun s => decide (s ∈ user_skills))
  let rate : ℚ := if 0 < cs.length then (ms.length : ℚ) / (cs.length : ℚ) else 0
  { job_id := "job_" ++ c.name
    title := "Position at " ++ c.name
    company := c.name
    location := c.location
    required_skills := cs
    matching_skills := ms
    skill_match_rate := rate
    score := rate }

/-- All rows of the job query that survive `WHERE match_rate > 0.3`, grouped by
company in order of first appearance. -/
def jobRows (g : Graph) (uid : String) : List JobRecommendation :=
  (g.usersWith uid).flatMap (fun u =>
    ((((jobTriples g u (g.rawSkills u.user_id)).map (fun t => t.2.2)).dedup).map
        (jobRow (g.rawSkills u.user_id) (jobTriples g u (g.rawSkills u.user_id)))).filter
      (fun r => decide ((3 : ℚ) / 10 < r.skill_match_rate)))

/-- Ordering of job rows: `ORDER BY score DESC` with no secondary key. -/
def jobR (a b : JobRecommendation) : Prop :=
  b.score ≤ a.score

instance : DecidableRel jobR :=
  fun _a _b => inferInstanceAs (Decidable (_ ≤ _))

instance : IsTrans JobRecommendation jobR := ⟨fun _ _ _ h1 h2 => h2.trans h1⟩

instance : IsTotal JobRecommendation jobR := ⟨fun a b => le_total b.score a.score⟩

/-- The job-recommendation operation: rows, sort by score descending,
`LIMIT $limit`. -/
def get_job_recommendations (g : Graph) (uid : String) (limit : ℕ) :
    List JobRecommendation :=
  (List.insertionSort jobR (jobRows g uid)).take limit

/-! ### People-you-may-know suggestions (`get_people_suggestions`) -/

/-- Output row of the people-suggestion query. -/
structure PersonSuggestion where
  user_id : String
  name : String
  title : Option String
  company : Option String
  mutual_connections : ℕ
  common_skills : ℕ
  same_company : Bool
  connection_path_length : Option ℕ
  score : ℚ
deriving DecidableEq, Repr

/-- One breadth-first frontier expansion over undirected `KNOWS` edges. -/
def bfsStep (g : Graph) (visited frontier : List String) : List String :=
  ((frontier.flatMap (fun a =>
    (g.users.map User.user_id).filter (fun b => g.knowsRel a b))).filter
      (fun b => !(visited.contains b))).dedup

/-- Fuel-bounded breadth-first search returning the distance from the current
frontier (at depth `d`) to `target`, or `none` when unreachable. -/
def bfsAux (g : Graph) (target : String) :
    List String → List String → ℕ → ℕ → Option ℕ
  | _, frontier, d, 0 =>
    if frontier.contains target then some d else none
  | visited, frontier, d, fuel + 1 =>
    if frontier.isEmpty then none
    else if frontier.contains target then some d
    else bfsAux g target (visited ++ frontier) (bfsStep g (visited ++ frontier) frontier)
      (d + 1) fuel

/-- `LENGTH(shortestPath((u)-[:KNOWS*]-(s)))`: hop distance in the undirected
`KNOWS` graph, `none` when no path exists. -/
def pathLen (g : Graph) (src tgt : String) : Option ℕ :=
  bfsAux g tgt [] [src] 0 (g.users.length + 1)

/-- Candidate set of the people query:
`MATCH (suggestion:User) WHERE suggestion <> u AND NOT suggestion IN friends
AND NOT (u)-[:KNOWS]-(suggestion)`. -/
def peopleCands (g : Graph) (u : User) (friends : List User) : List User :=
  (g.users.filter (fun s =>
    decide (s ≠ u) && decide (s ∉ friends) && !(g.knowsRel u.user_id s.user_id))).dedup

/-- People score before clamping:
`(mutual_count * 0.5 + common_skill_count * 0.3 + CASE WHEN same_company THEN 2 ELSE 0 END) / 10.0`. -/
def peopleScore (m k : ℕ) (same : Bool) : ℚ :=
  clamp1 (((m : ℚ) * 0.5 + (k : ℚ) * 0.3 + (if same then 2 else 0)) / 10)

/-- All rows of the people query for one binding of `u`: the `OPTIONAL MATCH`
on the employer of `u` (respectively of the suggestion) contributes one row per
company, or a single `null` row when there is none; the `WHERE` keeps a row
only when some signal is positive. -/
def peopleRowsFor (g : Graph) (u : User) : List PersonSuggestion :=
  let friends := (g.users.filter (fun f => g.knowsRel u.user_id f.user_id)).dedup
  let uskills := (g.rawSkills u.user_id).dedup
  let companyOpts :=
    if (g.companiesOf u.user_id).isEmpty then [none]
    else (g.companiesOf u.user_id).map some
  companyOpts.flatMap (fun co =>
    (peopleCands g u friends).flatMap (fun s =>
      let m := (friends.filter (fun f => g.knowsRel s.user_id f.user_id)).length
      let k := (uskills.filter (fun sk => g.hasSkillEdge s.user_id sk)).length
      let sCos :=
        if (g.companiesOf s.user_id).isEmpty then [none]
        else (g.companiesOf s.user_id).map some
      sCos.flatMap (fun sco =>
        let same : Bool :=
          match co, sco with
          | some c, some sc => decide (sc = c)
          | _, _ => false
        if 0 < m ∨ 0 < k ∨ same = true then
          [{ user_id := s.user_id
             name := s.name
             title := s.title
             company := sco.map Company.name
             mutual_connections := m
             common_skills := k
             same_company := same
             connection_path_length := pathLen g u.user_id s.user_id
             score := peopleScore m k same }]
        else [])))

/-- Ordering of people rows: score descending, then mutual count descending. -/
def peopleR (a b : PersonSuggestion) : Prop :=
  keyR (a.score, a.mutual_connections) (b.score, b.mutual_connections)

instance : DecidableRel peopleR :=
  fun _a _b => inferInstanceAs (Decidable (keyR _ _))

instance : IsTrans PersonSuggestion peopleR := ⟨fun _ _ _ => keyR_trans⟩

instance : IsTotal PersonSuggestion peopleR := ⟨fun _ _ => keyR_total _ _⟩

/-- The people-suggestion operation: rows, sort by
`ORDER BY score DESC, mutual_count DESC`, `LIMIT $limit`. -/
def get_people_suggestions (g : Graph) (uid : String) (limit : ℕ) :
    List PersonSuggestion :=
  (List.insertionSort peopleR ((g.usersWith uid).flatMap (peopleRowsFor g))).take limit

/-! ### Spec-side job match rate (for the refinement comparison) -/

/-- Spec formula for one candidate employer's skill pool, following the spec's
words: the union of ALL skills held by that employer's employees who share at
least one skill with the requester. -/
def companySkillsSpec (g : Graph) (uid cname : String) : List String :=
  ((g.users.filter (fun e =>
    g.worksAtEdge e.user_id cname &&
      (g.rawSkills e.user_id).any (fun s => g.hasSkillEdge uid s))).flatMap
    (fun e => g.rawSkills e.user_id)).dedup

/-- Spec formula for the job match rate:
`|company_skills ∩ user_skills| / |company_skills|`, `0` when the pool is
empty. -/
def matchRateSpec (g : Graph) (uid cname : String) : ℚ :=
  let cs := companySkillsSpec g uid cname
  let ms := cs.filter (fun s => g.hasSkillEdge uid s)
  if 0 < cs.length then (ms.length : ℚ) / (cs.length : ℚ) else 0

/-! ### Generic facts about the embedding -/

/-- The clamp of the `RETURN` clauses is the minimum with `1`. -/
theorem clamp1_eq_min (q : ℚ) : clamp1 q = min q 1 := by
  rw [clamp1]
  rcases le_or_lt q 1 with h | h
  · rw [if_neg (not_lt.mpr h), min_eq_left h]
  · rw [if_pos h, min_eq_right h.le]

/-- The clamp never exceeds `1`. -/
theorem clamp1_le_one (q : ℚ) : clamp1 q ≤ 1 := by
  rw [clamp1_eq_min]; exact min_le_right _ _

/-- The clamp preserves nonnegativity. -/
theorem clamp1_nonneg {q : ℚ} (h : 0 ≤ q) : 0 ≤ clamp1 q := by
  rw [clamp1_eq_min]; exact le_min h zero_le_one

/-- Every returned friend recommendation is the row built for some binding of
`u` and some candidate. -/
theorem mem_friend_rows {g : Graph} {uid : String} {limit : ℕ}
    {r : FriendRecommendation} (h : r ∈ get_friend_recommendations g uid limit) :
    ∃ u ∈ g.usersWith uid, ∃ c ∈ friendCands g u, r = friendRow g uid u c := by
  rw [get_friend_recommendations] at h
  have h1 := List.mem_of_mem_take h
  rw [List.mem_insertionSort, List.mem_flatMap] at h1
  obtain ⟨u, hu, h2⟩ := h1
  rw [List.mem_map] at h2
  obtain ⟨c, hc, rfl⟩ := h2
  exact ⟨u, hu, c, hc, rfl⟩

/-- Every returned job recommendation is the row built for some binding of `u`
and some candidate company of the grouped rows. -/
theorem mem_job_rows {g : Graph} {uid : String} {limit : ℕ}
    {r : JobRecommendation} (h : r ∈ get_job_recommendations g uid limit) :
    ∃ u ∈ g.usersWith uid,
      ∃ c ∈ ((jobTriples g u (g.rawSkills u.user_id)).map (fun t => t.2.2)).dedup,
        r = jobRow (g.rawSkills u.user_id) (jobTriples g u (g.rawSkills u.user_id)) c := by
  rw [get_job_recommendations] at h
  have h1 := List.mem_of_mem_take h
  rw [List.mem_insertionSort, jobRows, List.mem_flatMap] at h1
  obtain ⟨u, hu, h2⟩ := h1
  have h3 := List.mem_of_mem_filter h2
  rw [List.mem_map] at h3
  obtain ⟨c, hc, rfl⟩ := h3
  exact ⟨u, hu, c, hc, rfl⟩

/-- Every returned person suggestion comes from a candidate of `peopleCands`,
passed the signal filter, and carries the clamped weighted score of its own
signal fields. -/
theorem mem_people_rows {g : Graph} {uid : String} {limit : ℕ}
    {r : PersonSuggestion} (h : r ∈ get_people_suggestions g uid limit) :
    ∃ u ∈ g.usersWith uid,
      ∃ s ∈ peopleCands g u
        ((g.users.filter (fun f => g.knowsRel u.user_id f.user_id)).dedup),
        r.user_id = s.user_id ∧
        (0 < r.mutual_connections ∨ 0 < r.common_skills ∨ r.same_company = true) ∧
        r.score = peopleScore r.mutual_connections r.common_skills r.same_company := by
  rw [get_people_suggestions] at h
  have h1 := List.mem_of_mem_take h
  rw [List.mem_insertionSort, List.mem_flatMap] at h1
  obtain ⟨u, hu, h2⟩ := h1
  simp only [peopleRowsFor, List.mem_flatMap] at h2
  obtain ⟨co, hco, s, hs, sco, hsco, h3⟩ := h2
  split at h3
  · next hP =>
      rw [List.mem_singleton] at h3
      subst h3
      exact ⟨u, hu, s, hs, rfl, hP, rfl⟩
  · exact absurd h3 (List.not_mem_nil r)

/-- Membership in the bindings of `MATCH (u:User {user_id: $user_id})`. -/
theorem usersWith_spec {g : Graph} {uid : String} {u : User}
    (h : u ∈ g.usersWith uid) : u ∈ g.users ∧ u.user_id = uid := by
  rw [Graph.usersWith, List.mem_filter] at h
  exact ⟨h.1, by simpa using h.2⟩

/-- A friend candidate is a user node distinct from the requester node and not
directly connected to it. -/
theorem friendCands_spec {g : Graph} {u c : User} (h : c ∈ friendCands g u) :
    c ∈ g.users ∧ c ≠ u ∧ g.knowsRel u.user_id c.user_id = false := by
  rw [friendCands, List.mem_dedup, List.mem_filter] at h
  obtain ⟨hc, hcond⟩ := h
  simp only [Bool.and_eq_true, decide_eq_true_eq, Bool.not_eq_true'] at hcond
  exact ⟨hc, hcond.1.2, hcond.2⟩

/-- A people candidate is a user node distinct from the requester node and not
directly connected to it. -/
theorem peopleCands_spec {g : Graph} {u s : User} {friends : List User}
    (h : s ∈ peopleCands g u friends) :
    s ∈ g.users ∧ s ≠ u ∧ g.knowsRel u.user_id s.user_id = false := by
  rw [peopleCands, List.mem_dedup, List.mem_filter] at h
  obtain ⟨hs, hcond⟩ := h
  simp only [Bool.and_eq_true, decide_eq_true_eq, Bool.not_eq_true'] at hcond
  exact ⟨hs, hcond.1.1, hcond.2⟩

/-- Every skill name occurring in a job-query row was matched by
`WHERE s.name IN user_skills`, hence is one of the requester's skills. -/
theorem jobTriples_skill_mem {g : Graph} {u : User} {us : List String}
    {t : User × String × Company} (h : t ∈ jobTriples g u us) : t.2.1 ∈ us := by
  rw [jobTriples, List.mem_flatMap] at h
  obtain ⟨p, hp, ht⟩ := h
  rw [List.mem_map] at ht
  obtain ⟨c, hc, rfl⟩ := ht
  rw [jobPairs, List.mem_flatMap] at hp
  obtain ⟨other, ho, hmem⟩ := hp
  rw [List.mem_map] at hmem
  obtain ⟨s, hsf, rfl⟩ := hmem
  have hcond := List.of_mem_filter hsf
  simp only [Bool.and_eq_true, decide_eq_true_eq] at hcond
  exact hcond.2

/-- Every member of one company group's collected skill list is the skill of a
row of that group. -/
theorem companySkills_mem {ts : List (User × String × Company)} {c : Company}
    {x : String} (h : x ∈ companySkills ts c) :
    ∃ t ∈ ts, t.2.2 = c ∧ t.2.1 = x := by
  rw [companySkills, List.mem_dedup, List.mem_map] at h
  obtain ⟨t, htf, rfl⟩ := h
  have h1 := List.mem_of_mem_filter htf
  have h2 := List.of_mem_filter htf
  simp only [decide_eq_true_eq] at h2
  exact ⟨t, h1, h2, rfl⟩

/-- A candidate company's collected skill list is nonempty: the group exists
only because at least one matched row mentions the company. -/
theorem companySkills_ne_nil {ts : List (User × String × Company)} {c : Company}
    (h : c ∈ (ts.map (fun t => t.2.2)).dedup) : companySkills ts c ≠ [] := by
  rw [List.mem_dedup, List.mem_map] at h
  obtain ⟨t, ht, htc⟩ := h
  have hmem : t.2.1 ∈ companySkills ts c := by
    rw [companySkills, List.mem_dedup, List.mem_map]
    exact ⟨t, List.mem_filter.mpr ⟨ht, by simp [htc]⟩, rfl⟩
  intro hnil
  rw [hnil] at hmem
  exact absurd hmem (List.not_mem_nil _)

/-- Core fact about the job scorer as implemented: because the query collects
only skills the requester also holds, every returned row has
`matching_skills = required_skills`, a nonempty skill list, and match rate and
score exactly `1`. -/
theorem job_mem_strong {g : Graph} {uid : String} {limit : ℕ}
    {r : JobRecommendation} (h : r ∈ get_job_recommendations g uid limit) :
    r.matching_skills = r.required_skills ∧ r.required_skills ≠ [] ∧
      r.skill_match_rate = 1 ∧ r.score = 1 := by
  obtain ⟨u, hu, c, hc, rfl⟩ := mem_job_rows h
  have hsub : ∀ x ∈ companySkills (jobTriples g u (g.rawSkills u.user_id)) c,
      x ∈ g.rawSkills u.user_id := by
    intro x hx
    obtain ⟨t, ht, -, htx⟩ := companySkills_mem hx
    rw [← htx]
    exact jobTriples_skill_mem ht
  have hms : (companySkills (jobTriples g u (g.rawSkills u.user_id)) c).filter
        (fun s => decide (s ∈ g.rawSkills u.user_id)) =
      companySkills (jobTriples g u (g.rawSkills u.user_id)) c :=
    List.filter_eq_self.mpr (fun a ha => by simpa using hsub a ha)
  have hne := companySkills_ne_nil hc
  have hpos : 0 < (companySkills (jobTriples g u (g.rawSkills u.user_id)) c).length :=
    List.length_pos.mpr hne
  have hrate : (if 0 < (companySkills (jobTriples g u (g.rawSkills u.user_id)) c).length
      then (((companySkills (jobTriples g u (g.rawSkills u.user_id)) c).filter
          (fun s => decide (s ∈ g.rawSkills u.user_id))).length : ℚ) /
        ((companySkills (jobTriples g u (g.rawSkills u.user_id)) c).length : ℚ)
      else 0) = 1 := by
    rw [if_pos hpos, hms, div_self]
    exact Nat.cast_ne_zero.mpr (Nat.pos_iff_ne_zero.mp hpos)
  exact ⟨hms, hne, hrate, hrate⟩

/-! ### Concrete graphs for the witnesses and counterexamples -/

/-- Example graph: requester `u` has six direct connections, each of which
knows `c`; `u` and `c` share the skills Go and Rust. -/
def friendExG : Graph where
  users := [⟨"u", "U", none⟩, ⟨"f1", "F1", none⟩, ⟨"f2", "F2", none⟩,
    ⟨"f3", "F3", none⟩, ⟨"f4", "F4", none⟩, ⟨"f5", "F5", none⟩,
    ⟨"f6", "F6", none⟩, ⟨"c", "C", some "Dev"⟩]
  companies := []
  knows := [("u", "f1"), ("u", "f2"), ("u", "f3"), ("u", "f4"), ("u", "f5"),
    ("u", "f6"), ("f1", "c"), ("f2", "c"), ("f3", "c"), ("f4", "c"),
    ("f5", "c"), ("f6", "c")]
  hasSkill := [("u", "Go"), ("u", "Rust"), ("c", "Go"), ("c", "Rust")]
  worksAt := []

/-- The single friend recommendation returned on `friendExG` for `u`. -/
def friendExRec : FriendRecommendation :=
  ⟨"c", "C", some "Dev", 6, ["Go", "Rust"], 11 / 25, "Many mutual connections"⟩

/-- The single person suggestion returned on `friendExG` for `u`. -/
def friendExPerson : PersonSuggestion :=
  ⟨"c", "C", some "Dev", none, 6, 2, false, some 2, 9 / 25⟩

/-- Example graph: `u` and `v` only share an employer; no connections or
skills anywhere. -/
def peopleExG : Graph where
  users := [⟨"u", "U", none⟩, ⟨"v", "V", none⟩]
  companies := [⟨"Acme", some "NYC"⟩]
  knows := []
  hasSkill := []
  worksAt := [("u", "Acme"), ("v", "Acme")]

/-- The single person suggestion returned on `peopleExG` for `u`. -/
def peopleExRec : PersonSuggestion :=
  ⟨"v", "V", none, some "Acme", 0, 0, true, none, 1 / 5⟩

/-- Example graph: `u` and `o` share the one skill A; `o` works at Acme. -/
def jobExG : Graph where
  users := [⟨"u", "U", none⟩, ⟨"o", "O", none⟩]
  companies := [⟨"Acme", some "NYC"⟩]
  knows := []
  hasSkill := [("u", "A"), ("o", "A")]
  worksAt := [("o", "Acme")]

/-- The single job recommendation returned on `jobExG` for `u`. -/
def jobExRec : JobRecommendation :=
  ⟨"job_Acme", "Position at Acme", "Acme", some "NYC", ["A"], ["A"], 1, 1⟩

/-- Counterexample graph for the spec's job match-rate formula: employee `o`
shares skill A with `u` but also holds B, C and D, so the spec-side rate is
`1/4` while the query, collecting only shared skills, scores the employer `1`. -/
def jobCexG : Graph where
  users := [⟨"u", "U", none⟩, ⟨"o", "O", none⟩]
  companies := [⟨"Acme", none⟩]
  knows := []
  hasSkill := [("u", "A"), ("o", "A"), ("o", "B"), ("o", "C"), ("o", "D")]
  worksAt := [("o", "Acme")]

/-- The single job recommendation returned on `jobCexG` for `u`. -/
def jobCexRec : JobRecommendation :=
  ⟨"job_Acme", "Position at Acme", "Acme", none, ["A"], ["A"], 1, 1⟩

/-- Counterexample graph for the job tie-break: two employers, listed Zeta
before Acme, both with match rate `1`. -/
def jobCex8G : Graph where
  users := [⟨"u", "U", none⟩, ⟨"z", "Z", none⟩, ⟨"a", "A", none⟩]
  companies := [⟨"Zeta", none⟩, ⟨"Acme", none⟩]
  knows := []
  hasSkill := [("u", "A"), ("z", "A"), ("a", "A")]
  worksAt := [("z", "Zeta"), ("a", "Acme")]

/-! ### The claims -/

/-- C1 (amended): for every employer returned by `get_job_recommendations`,
the returned score equals `|matching_skills| / |company_skills|` where
`company_skills` is the collected skill list of the query — which is already
restricted to skills the requester also holds — and this ratio is strictly
greater than `0.3`. -/
theorem C1_amended_job_score_ratio_above_threshold (g : Graph) (uid : String)
    (limit : ℕ) (r : JobRecommendation)
    (h : r ∈ get_job_recommendations g uid limit) :
    r.score = (r.matching_skills.length : ℚ) / (r.required_skills.length : ℚ) ∧
      (3 : ℚ) / 10 < r.score := by
  obtain ⟨hm, hne, hrate, hscore⟩ := job_mem_strong h
  constructor
  · rw [hscore, hm, eq_comm]
    exact div_self (Nat.cast_ne_zero.mpr (by simpa [List.length_eq_zero] using hne))
  · rw [hscore]; norm_num

/-- C2: every `JobRecommendation` returned by `get_job_recommendations` has
`matching_skills` equal to `required_skills` (the collected company skill list
is already restricted to skills the requester holds), hence
`skill_match_rate` and `score` are exactly `1`. -/
theorem C2_job_matching_equals_required_rate_one (g : Graph) (uid : String)
    (limit : ℕ) (r : JobRecommendation)
    (h : r ∈ get_job_recommendations g uid limit) :
    r.matching_skills = r.required_skills ∧ r.skill_match_rate = 1 ∧ r.score = 1 := by
  obtain ⟨hm, -, hrate, hscore⟩ := job_mem_strong h
  exact ⟨hm, hrate, hscore⟩

/-- C3: every score returned by any of the three scorers lies in `[0, 1]`;
the clamp caps raw sums above `1` and no score is negative. -/
theorem C3_scores_in_unit_interval (g : Graph) (uid : String) (limit : ℕ) :
    (∀ r ∈ get_friend_recommendations g uid limit, 0 ≤ r.score ∧ r.score ≤ 1) ∧
    (∀ r ∈ get_job_recommendations g uid limit, 0 ≤ r.score ∧ r.score ≤ 1) ∧
    (∀ r ∈ get_people_suggestions g uid limit, 0 ≤ r.score ∧ r.score ≤ 1) := by
  refine ⟨?_, ?_, ?_⟩
  · intro r hr
    obtain ⟨u, -, c, -, rfl⟩ := mem_friend_rows hr
    have h0 : (0 : ℚ) ≤ ((mutualCount g u c : ℚ) * 0.6 +
        ((commonSkills g uid c).length : ℚ) * 0.4) / 10 := by positivity
    exact ⟨clamp1_nonneg h0, clamp1_le_one _⟩
  · intro r hr
    have hs := (job_mem_strong hr).2.2.2
    rw [hs]
    norm_num
  · intro r hr
    obtain ⟨u, -, s, -, -, -, hscore⟩ := mem_people_rows hr
    rw [hscore, peopleScore]
    constructor
    · apply clamp1_nonneg
      have hif : (0 : ℚ) ≤ (if r.same_company then (2 : ℚ) else 0) := by
        split <;> norm_num
      have h1 : (0 : ℚ) ≤ (r.mutual_connections : ℚ) * 0.5 := by positivity
      have h2 : (0 : ℚ) ≤ (r.common_skills : ℚ) * 0.3 := by positivity
      exact div_nonneg (add_nonneg (add_nonneg h1 h2) hif) (by norm_num)
    · exact clamp1_le_one _

/-- C4: every returned friend recommendation's score is
`min ((mutual * 0.6 + |common_skills| * 0.4) / 10) 1`, and its reason is
chosen in source order: mutual count over `5` first, then common-skill count
over `3`, else the default. -/
theorem C4_friend_score_and_reason (g : Graph) (uid : String) (limit : ℕ)
    (r : FriendRecommendation) (h : r ∈ get_friend_recommendations g uid limit) :
    r.score = min (((r.mutual_connections : ℚ) * 0.6 +
        (r.common_skills.length : ℚ) * 0.4) / 10) 1 ∧
      r.reason = (if 5 < r.mutual_connections then "Many mutual connections"
        else if 3 < r.common_skills.length then "Similar skills"
        else "Mutual connections") := by
  obtain ⟨u, -, c, -, rfl⟩ := mem_friend_rows h
  constructor
  · simp only [friendRow]
    rw [friendScore, clamp1_eq_min]
  · rfl

/-- C5: every returned person suggestion's score is
`min ((mutual * 0.5 + common_skill_count * 0.3 + (2 if same employer else 0)) / 10) 1`. -/
theorem C5_people_score_formula (g : Graph) (uid : String) (limit : ℕ)
    (r : PersonSuggestion) (h : r ∈ get_people_suggestions g uid limit) :
    r.score = min (((r.mutual_connections : ℚ) * 0.5 + (r.common_skills : ℚ) * 0.3 +
        (if r.same_company then 2 else 0)) / 10) 1 := by
  obtain ⟨u, -, s, -, -, -, hscore⟩ := mem_people_rows h
  rw [hscore, peopleScore, clamp1_eq_min]

/-- C6: a person suggestion is returned only when at least one signal is
positive: positive mutual count, positive common-skill count, or a shared
employer; an all-zero candidate never appears. -/
theorem C6_people_positive_signal_filter (g : Graph) (uid : String) (limit : ℕ)
    (r : PersonSuggestion) (h : r ∈ get_people_suggestions g uid limit) :
    0 < r.mutual_connections ∨ 0 < r.common_skills ∨ r.same_company = true := by
  obtain ⟨u, -, s, -, -, hP, -⟩ := mem_people_rows h
  exact hP

/-- C7: under the database's uniqueness constraint on `user_id`, neither the
friend scorer nor the people scorer ever returns the requester's own id or the
id of a user already directly connected to the requester. -/
theorem C7_excludes_self_and_connections (g : Graph) (uid : String) (limit : ℕ)
    (hnd : (g.users.map User.user_id).Nodup) :
    (∀ r ∈ get_friend_recommendations g uid limit,
        r.user_id ≠ uid ∧ g.knowsRel uid r.user_id = false) ∧
    (∀ r ∈ get_people_suggestions g uid limit,
        r.user_id ≠ uid ∧ g.knowsRel uid r.user_id = false) := by
  constructor
  · intro r hr
    obtain ⟨u, hu, c, hc, rfl⟩ := mem_friend_rows hr
    obtain ⟨humem, huid⟩ := usersWith_spec hu
    obtain ⟨hcmem, hcu, hknows⟩ := friendCands_spec hc
    constructor
    · show c.user_id ≠ uid
      rw [← huid]
      intro he
      exact hcu (List.inj_on_of_nodup_map hnd hcmem humem he)
    · show g.knowsRel uid c.user_id = false
      rw [← huid]
      exact hknows
  · intro r hr
    obtain ⟨u, hu, s, hs, hid, -, -⟩ := mem_people_rows hr
    obtain ⟨humem, huid⟩ := usersWith_spec hu
    obtain ⟨hsmem, hsu, hknows⟩ := peopleCands_spec hs
    rw [hid]
    constructor
    · rw [← huid]
      intro he
      exact hsu (List.inj_on_of_nodup_map hnd hsmem humem he)
    · rw [← huid]
      exact hknows

/-- C8 (amended): every scorer's output is sorted by score descending; for the
friend and people scorers ties are broken by mutual count descending; the job
scorer orders by score only, with no secondary key. -/
theorem C8_amended_sorted_by_documented_keys (g : Graph) (uid : String) (limit : ℕ) :
    ((get_friend_recommendations g uid limit).Pairwise (fun a b =>
        b.score ≤ a.score ∧
          (a.score = b.score → b.mutual_connections ≤ a.mutual_connections))) ∧
    ((get_job_recommendations g uid limit).Pairwise (fun a b => b.score ≤ a.score)) ∧
    ((get_people_suggestions g uid limit).Pairwise (fun a b =>
        b.score ≤ a.score ∧
          (a.score = b.score → b.mutual_connections ≤ a.mutual_connections))) := by
  refine ⟨?_, ?_, ?_⟩
  · apply List.Pairwise.sublist (List.take_sublist _ _)
    apply List.Pairwise.imp ?_ (List.sorted_insertionSort friendR _)
    intro a b hab
    have hab' : b.score < a.score ∨
        (a.score = b.score ∧ b.mutual_connections ≤ a.mutual_connections) := hab
    rcases hab' with hlt | ⟨heq, hle⟩
    · exact ⟨hlt.le, fun he => absurd hlt (by rw [he]; exact lt_irrefl _)⟩
    · exact ⟨heq.ge, fun _ => hle⟩
  · apply List.Pairwise.sublist (List.take_sublist _ _)
    exact List.sorted_insertionSort jobR _
  · apply List.Pairwise.sublist (List.take_sublist _ _)
    apply List.Pairwise.imp ?_ (List.sorted_insertionSort peopleR _)
    intro a b hab
    have hab' : b.score < a.score ∨
        (a.score = b.score ∧ b.mutual_connections ≤ a.mutual_connections) := hab
    rcases hab' with hlt | ⟨heq, hle⟩
    · exact ⟨hlt.le, fun he => absurd hlt (by rw [he]; exact lt_irrefl _)⟩
    · exact ⟨heq.ge, fun _ => hle⟩

/-- C9: for each scorer, a limit of `k` returns at most `k` results, and the
result is exactly the first `k` elements of the result for limit `k + 1`:
truncation happens after the full ranking and never reorders it. -/
theorem C9_limit_prefix_truncation (g : Graph) (uid : String) (k : ℕ) :
    ((get_friend_recommendations g uid k).length ≤ k ∧
      get_friend_recommendations g uid k =
        (get_friend_recommendations g uid (k + 1)).take k) ∧
    ((get_job_recommendations g uid k).length ≤ k ∧
      get_job_recommendations g uid k =
        (get_job_recommendations g uid (k + 1)).take k) ∧
    ((get_people_suggestions g uid k).length ≤ k ∧
      get_people_suggestions g uid k =
        (get_people_suggestions g uid (k + 1)).take k) := by
  have hmin : k ⊓ (k + 1) = k := min_eq_left (Nat.le_succ k)
  refine ⟨⟨List.length_take_le _ _, ?_⟩, ⟨List.length_take_le _ _, ?_⟩,
    ⟨List.length_take_le _ _, ?_⟩⟩
  · simp only [get_friend_recommendations, List.take_take, hmin]
  · simp only [get_job_recommendations, List.take_take, hmin]
  · simp only [get_people_suggestions, List.take_take, hmin]

/-- C10: when no user node carries the requested id, all three scorers return
the empty list as a successful result. -/
theorem C10_unknown_requester_empty (g : Graph) (uid : String) (limit : ℕ)
    (h : ∀ u ∈ g.users, u.user_id ≠ uid) :
    get_friend_recommendations g uid limit = [] ∧
    get_job_recommendations g uid limit = [] ∧
    get_people_suggestions g uid limit = [] := by
  have husers : g.usersWith uid = [] := by
    rw [Graph.usersWith, List.filter_eq_nil_iff]
    intro u hu
    simp [h u hu]
  refine ⟨?_, ?_, ?_⟩ <;>
    simp [get_friend_recommendations, get_job_recommendations,
      get_people_suggestions, jobRows, husers, List.insertionSort]

section

attribute [local semireducible] Rat.add Rat.mul Rat.sub Rat.inv Rat.ofScientific

/-- C1 counterexample: on `jobCexG`, the only returned employer Acme has score
`1`, while the spec-side match rate — over the union of ALL skills of its
skill-sharing employees — is `1/4`: the returned score differs from the
claimed formula, and `1/4` is not above the `0.3` threshold, so under the
claimed formula Acme would not have been returned at all. -/
theorem C1_counterexample_spec_match_rate :
    ((get_job_recommendations jobCexG "u" 10).map (fun r => (r.company, r.score))) =
        [("Acme", 1)] ∧
    matchRateSpec jobCexG "u" "Acme" = 1 / 4 ∧
    (1 : ℚ) ≠ 1 / 4 ∧
    ¬ ((1 : ℚ) / 4 > 3 / 10) := by
  refine ⟨by decide, by decide, by decide, by decide⟩

/-- C1 witness: the amended claim evaluated on `jobCexG`. -/
theorem C1_amended_witness :
    jobCexRec ∈ get_job_recommendations jobCexG "u" 10 ∧
    (jobCexRec.score = (jobCexRec.matching_skills.length : ℚ) /
        (jobCexRec.required_skills.length : ℚ) ∧
      (3 : ℚ) / 10 < jobCexRec.score) :=
  ⟨by decide, C1_amended_job_score_ratio_above_threshold jobCexG "u" 10 jobCexRec (by decide)⟩

/-- C2 witness: the claim evaluated on `jobExG`. -/
theorem C2_witness :
    jobExRec ∈ get_job_recommendations jobExG "u" 10 ∧
    (jobExRec.matching_skills = jobExRec.required_skills ∧
      jobExRec.skill_match_rate = 1 ∧ jobExRec.score = 1) :=
  ⟨by decide, C2_job_matching_equals_required_rate_one jobExG "u" 10 jobExRec (by decide)⟩

/-- C3 witness: the bound evaluated on a returned row of `friendExG`. -/
theorem C3_witness :
    friendExRec ∈ get_friend_recommendations friendExG "u" 10 ∧
    (0 ≤ friendExRec.score ∧ friendExRec.score ≤ 1) :=
  ⟨by decide, (C3_scores_in_unit_interval friendExG "u" 10).1 friendExRec (by decide)⟩

/-- C4 witness: on `friendExG` the returned candidate has six mutual
connections and two common skills, score `0.44` and reason
"Many mutual connections", matching the claimed formula. -/
theorem C4_witness :
    friendExRec ∈ get_friend_recommendations friendExG "u" 10 ∧
    friendExRec.mutual_connections = 6 ∧
    friendExRec.common_skills.length = 2 ∧
    friendExRec.score = 11 / 25 ∧
    (11 : ℚ) / 25 = 0.44 ∧
    (friendExRec.score = min (((friendExRec.mutual_connections : ℚ) * 0.6 +
        (friendExRec.common_skills.length : ℚ) * 0.4) / 10) 1 ∧
      friendExRec.reason = (if 5 < friendExRec.mutual_connections
        then "Many mutual connections"
        else if 3 < friendExRec.common_skills.length then "Similar skills"
        else "Mutual connections")) :=
  ⟨by decide, by decide, by decide, by decide, by decide,
    C4_friend_score_and_reason friendExG "u" 10 friendExRec (by decide)⟩

/-- C5 witness: on `peopleExG` the same-employer-only candidate is returned
with score exactly `0.2`, matching the claimed formula. -/
theorem C5_witness :
    peopleExRec ∈ get_people_suggestions peopleExG "u" 10 ∧
    peopleExRec.mutual_connections = 0 ∧
    peopleExRec.common_skills = 0 ∧
    peopleExRec.same_company = true ∧
    peopleExRec.score = 1 / 5 ∧
    (1 : ℚ) / 5 = 0.2 ∧
    peopleExRec.score = min (((peopleExRec.mutual_connections : ℚ) * 0.5 +
        (peopleExRec.common_skills : ℚ) * 0.3 +
        (if peopleExRec.same_company then 2 else 0)) / 10) 1 :=
  ⟨by decide, by decide, by decide, by decide, by decide, by decide,
    C5_people_score_formula peopleExG "u" 10 peopleExRec (by decide)⟩

/-- C6 witness: the filter disjunction evaluated on the returned row of
`peopleExG`. -/
theorem C6_witness :
    peopleExRec ∈ get_people_suggestions peopleExG "u" 10 ∧
    (0 < peopleExRec.mutual_connections ∨ 0 < peopleExRec.common_skills ∨
      peopleExRec.same_company = true) :=
  ⟨by decide, C6_people_positive_signal_filter peopleExG "u" 10 peopleExRec (by decide)⟩

/-- C7 witness: exclusions evaluated on the returned friend and people rows of
`friendExG`, whose user ids are pairwise distinct. -/
theorem C7_witness :
    (friendExG.users.map User.user_id).Nodup ∧
    friendExRec ∈ get_friend_recommendations friendExG "u" 10 ∧
    friendExPerson ∈ get_people_suggestions friendExG "u" 10 ∧
    (friendExRec.user_id ≠ "u" ∧ friendExG.knowsRel "u" friendExRec.user_id = false) ∧
    (friendExPerson.user_id ≠ "u" ∧
      friendExG.knowsRel "u" friendExPerson.user_id = false) :=
  ⟨by decide, by decide, by decide,
    (C7_excludes_self_and_connections friendExG "u" 10 (by decide)).1
      friendExRec (by decide),
    (C7_excludes_self_and_connections friendExG "u" 10 (by decide)).2
      friendExPerson (by decide)⟩

/-- C8 counterexample: on `jobCex8G` the job scorer returns two employers with
equal scores in the order Zeta, Acme; the adjacent equal-score pair is
strictly descending in employer name (`String` order on `"Acme"` and `"Zeta"`
is the lexicographic order of their character lists), so no
employer-name-ascending tie-break is applied. -/
theorem C8_counterexample_job_tiebreak :
    ((get_job_recommendations jobCex8G "u" 10).map (fun r => r.company)) =
        ["Zeta", "Acme"] ∧
    ((get_job_recommendations jobCex8G "u" 10).map (fun r => r.score)) = [1, 1] ∧
    "Acme".data < "Zeta".data := by
  refine ⟨by decide, by decide, by decide⟩

/-- C10 witness: the three scorers evaluated at an id that no user of
`friendExG` carries. -/
theorem C10_witness :
    (∀ u ∈ friendExG.users, u.user_id ≠ "nobody") ∧
    (get_friend_recommendations friendExG "nobody" 10 = [] ∧
      get_job_recommendations friendExG "nobody" 10 = [] ∧
      get_people_suggestions friendExG "nobody" 10 = []) :=
  ⟨by decide, C10_unknown_requester_empty friendExG "nobody" 10 (by decide)⟩

end
